import Mathlib

/-!
# Verification of the NBA analytics seeding scripts

Shallow embedding of the entity-resolution / upsert-merge core of the
seeding scripts of the repository (`seed_games_nba.py`, `seed_boxscores_nba.py`,
`seed-nba-then-crossref-bdl.py`, `copy-stats-to-bdl-games.py`,
`sync-game-provider-mappings.py`) and proofs about its merge policies,
resolver idempotence, reconciliation mappings and aggregation behaviour.

Database tables are modelled as lists of rows; each `insert ... on conflict`
statement becomes a recursive update-or-append function (the database
enforces uniqueness of the conflict key, so at most one row matches).
Python floats, which here only ever carry exact short decimal values, are
modelled as `ℚ`; SQL `NULL` and Python `None` are `Option`.  String
splitting is implemented by structural recursion over the character list,
mirroring Python `str.split`.
-/

/-! ## String and number helpers (Python semantics) -/

/-- Value of a non-empty all-digit character list, `none` otherwise. -/
def digitsVal (cs : List Char) : Option Nat :=
  if cs = [] then none
  else cs.foldl
    (fun acc c => acc.bind (fun n => if c.isDigit then some (n * 10 + (c.toNat - 48)) else none))
    (some 0)

/-- Drop leading and trailing whitespace from a character list. -/
def trimChars (cs : List Char) : List Char :=
  ((cs.dropWhile Char.isWhitespace).reverse.dropWhile Char.isWhitespace).reverse

/-- Python `int(s)`: strip surrounding whitespace, optional sign, digits;
`ValueError` (modelled as `none`) otherwise. -/
def pyInt (s : String) : Option Int :=
  match trimChars s.data with
  | [] => none
  | c :: rest =>
    if c = '-' then (digitsVal rest).map (fun n => -(n : Int))
    else if c = '+' then (digitsVal rest).map (fun n => (n : Int))
    else (digitsVal (c :: rest)).map (fun n => (n : Int))

/-- Helper for `pySplitOnChar`: `acc` holds the current piece reversed. -/
def splitOnCharAux (sep : Char) : List Char → List Char → List String
  | [], acc => [String.mk acc.reverse]
  | c :: rest, acc =>
    if c = sep then String.mk acc.reverse :: splitOnCharAux sep rest []
    else splitOnCharAux sep rest (c :: acc)

/-- Python `s.split(sep)` for a one-character separator, keeping empty
pieces (`"::".split(":") == ["", "", ""]`). -/
def pySplitOnChar (sep : Char) (s : String) : List String :=
  splitOnCharAux sep s.data []

/-- Helper for `splitWs`: `acc` holds the current word reversed. -/
def splitWsAux : List Char → List Char → List String
  | [], acc => if acc = [] then [] else [String.mk acc.reverse]
  | c :: rest, acc =>
    if c.isWhitespace then
      if acc = [] then splitWsAux rest []
      else String.mk acc.reverse :: splitWsAux rest []
    else splitWsAux rest (c :: acc)

/-- Python `str.split()` with no argument: split on whitespace runs,
dropping empty pieces. -/
def splitWs (s : String) : List String :=
  splitWsAux s.data []

/-- Python truthiness of an optional string: `None` and `""` are falsy. -/
def truthyStr : Option String → Bool
  | none => false
  | some s => s ≠ ""

/-- Lower-case a string character by character (`str.lower()` /
SQL `ilike` case folding for the ASCII names handled here). -/
def lowerStr (s : String) : String := String.mk (s.data.map Char.toLower)

/-- Whether `n` occurs as a contiguous sublist of `h`. -/
def listSub (n : List Char) : List Char → Bool
  | [] => n.isEmpty
  | c :: rest => n.isPrefixOf (c :: rest) || listSub n rest

/-- Case-insensitive substring test: SQL `ilike` with the needle wrapped
in percent wildcards. -/
def containsCI (hay needle : String) : Bool :=
  listSub (lowerStr needle).data (lowerStr hay).data

/-- Round a rational to the nearest integer, ties to even
(the rounding mode of Python `round`). -/
def rneInt (q : ℚ) : Int :=
  if q - ⌊q⌋ < 1/2 then ⌊q⌋
  else if 1/2 < q - ⌊q⌋ then ⌊q⌋ + 1
  else if ⌊q⌋ % 2 = 0 then ⌊q⌋ else ⌊q⌋ + 1

/-- Python `round(x, 2)` on the exact values arising here. -/
def round2 (q : ℚ) : ℚ := (rneInt (q * 100) : ℚ) / 100

/-- Python `int(float)`: truncation toward zero. -/
def truncQ (q : ℚ) : Int := Int.sign q.num * ((q.num.natAbs : Int) / (q.den : Int))

/-- `to_int` from the seeders: `None` passes through, otherwise `int(value)`. -/
def to_int (v : Option ℚ) : Option Int := v.map truncQ

/-! ## Minutes parsing

`parse_minutes_to_decimal` (identical in `seed_games_nba.py` and
`seed_boxscores_nba.py`):

```python
def parse_minutes_to_decimal(value):
    if not value:
        return None
    if value in {"", "0", "0:00"}:
        return 0.0
    try:
        parts = value.split(":")
        if len(parts) != 2:
            return None
        minutes = int(parts[0])
        seconds = int(parts[1])
        return round(minutes + seconds / 60, 2)
    except (ValueError, TypeError):
        return None
```

Note the `if not value` guard fires for `None` and for `""` (empty string is
falsy in Python), so the `""` member of the set on the next line is
unreachable. -/

def parse_minutes_to_decimal (value : Option String) : Option ℚ :=
  match value with
  | none => none
  | some v =>
    if v = "" then none
    else if v = "0" ∨ v = "0:00" then some 0
    else
      match pySplitOnChar ':' v with
      | [p0, p1] =>
        match pyInt p0, pyInt p1 with
        | some m, some s => some (round2 ((m : ℚ) + (s : ℚ) / 60))
        | _, _ => none
      | _ => none

/-- The `dnp_reason` expression shared by `normalize_player_stat`
(`seed_games_nba.py`) and `upsert_player_game_stats`
(`seed_boxscores_nba.py`):
`stat["COMMENT"] if (minutes_decimal is None and stat["COMMENT"]) else None`. -/
def dnpReason (minutes_decimal : Option ℚ) (comment : Option String) : Option String :=
  if minutes_decimal = none ∧ truthyStr comment = true then comment else none

/-! ## Data model

Rows of the tables touched by the claims.  Stat columns that no claim
mentions (shooting splits, plus/minus, possessions, quarter scores,
`metadata` JSON detail, timestamps) are omitted; every one of them follows
the same unconditional last-write-wins pattern as the columns kept here. -/

/-- A row of `players`. -/
structure PlayerRow where
  player_id : String
  full_name : String
  first_name : Option String
  last_name : Option String
deriving DecidableEq

/-- A row of `provider_id_map`; unique on
`(entity_type, provider, provider_id)`. -/
structure PimRow where
  entity_type : String
  internal_id : String
  provider : String
  provider_id : String
  metadata : String
deriving DecidableEq

/-- A row of `games`; unique on `game_id`.  `start_time` is an abstract
timestamp (the datetime parsing in the scripts is not claim-relevant). -/
structure GameRow where
  game_id : String
  season : String
  start_time : Int
  status : Option String
  home_team_id : String
  away_team_id : String
  home_score : Option Int
  away_score : Option Int
  venue : Option String
deriving DecidableEq

/-- A row of `player_game_stats`; unique on `(game_id, player_id)`. -/
structure PgsRow where
  game_id : String
  player_id : String
  team_id : String
  minutes : Option ℚ
  points : Option Int
  rebounds : Option Int
  assists : Option Int
  started : Bool
  dnp_reason : Option String
deriving DecidableEq

/-- A row of `team_game_stats`; unique on `(game_id, team_id)`. -/
structure TgsRow where
  game_id : String
  team_id : String
  is_home : Bool
  points : Int
  rebounds : Int
  assists : Int
deriving DecidableEq

/-- The database state threaded through the scripts. -/
structure DB where
  players : List PlayerRow
  pim : List PimRow
  games : List GameRow
  pgs : List PgsRow
  tgs : List TgsRow
deriving DecidableEq

/-! ## Table primitives: lookups and conflict-keyed upserts -/

/-- Conflict-key test for `provider_id_map`. -/
def pimKeyMatch (x r : PimRow) : Bool :=
  x.entity_type == r.entity_type && x.provider == r.provider && x.provider_id == r.provider_id

/-- `select internal_id from provider_id_map where entity_type = .. and
provider = .. and provider_id = .. limit 1`. -/
def lookupPim : List PimRow → String → String → String → Option String
  | [], _, _, _ => none
  | x :: xs, et, prov, pid =>
    if x.entity_type == et && x.provider == prov && x.provider_id == pid then some x.internal_id
    else lookupPim xs et prov pid

/-- `insert into provider_id_map ... on conflict (entity_type, provider,
provider_id) do update set internal_id = excluded.internal_id, metadata =
excluded.metadata, ...`. -/
def upsertPimUpdate : List PimRow → PimRow → List PimRow
  | [], r => [r]
  | x :: xs, r =>
    if pimKeyMatch x r then { x with internal_id := r.internal_id, metadata := r.metadata } :: xs
    else x :: upsertPimUpdate xs r

/-- `select player_id from players where player_id = .. limit 1`. -/
def findPlayer : List PlayerRow → String → Option PlayerRow
  | [], _ => none
  | x :: xs, pid => if x.player_id == pid then some x else findPlayer xs pid

/-- `insert into players ... on conflict (player_id) do update set
full_name = excluded.full_name, first_name = excluded.first_name,
last_name = excluded.last_name` (`seed_boxscores_nba.py`). -/
def upsertPlayerUpdate : List PlayerRow → PlayerRow → List PlayerRow
  | [], r => [r]
  | x :: xs, r =>
    if x.player_id == r.player_id then
      { x with full_name := r.full_name, first_name := r.first_name, last_name := r.last_name } :: xs
    else x :: upsertPlayerUpdate xs r

/-- `insert into players ... on conflict (player_id) do nothing`
(`seed_games_nba.py`). -/
def upsertPlayerNothing : List PlayerRow → PlayerRow → List PlayerRow
  | [], r => [r]
  | x :: xs, r => if x.player_id == r.player_id then x :: xs else x :: upsertPlayerNothing xs r

/-- `select .. from games where game_id = .. limit 1`. -/
def findGame : List GameRow → String → Option GameRow
  | [], _ => none
  | x :: xs, gid => if x.game_id == gid then some x else findGame xs gid

/-- Lookup of a `(game_id, player_id)` key in `player_game_stats`. -/
def findPgs : List PgsRow → String → String → Option PgsRow
  | [], _, _ => none
  | x :: xs, gid, pid =>
    if x.game_id == gid && x.player_id == pid then some x else findPgs xs gid pid

/-- `insert into player_game_stats ... on conflict (game_id, player_id) do
update set <every non-key column> = excluded.<column>` (identical in both
seeders). -/
def upsertPgsRow : List PgsRow → PgsRow → List PgsRow
  | [], r => [r]
  | x :: xs, r =>
    if x.game_id == r.game_id && x.player_id == r.player_id then
      { x with team_id := r.team_id, minutes := r.minutes, points := r.points,
               rebounds := r.rebounds, assists := r.assists, started := r.started,
               dnp_reason := r.dnp_reason } :: xs
    else x :: upsertPgsRow xs r

/-- Lookup of a `(game_id, team_id)` key in `team_game_stats`. -/
def findTgs : List TgsRow → String → String → Option TgsRow
  | [], _, _ => none
  | x :: xs, gid, tid =>
    if x.game_id == gid && x.team_id == tid then some x else findTgs xs gid tid

/-- `insert into team_game_stats ... on conflict (game_id, team_id) do
update set points = excluded.points, ...` — note the update list does not
include `is_home`, which therefore keeps its stored value on conflict
(`seed_boxscores_nba.py`, `upsert_team_game_stats`). -/
def upsertTgsRow : List TgsRow → TgsRow → List TgsRow
  | [], r => [r]
  | x :: xs, r =>
    if x.game_id == r.game_id && x.team_id == r.team_id then
      { x with points := r.points, rebounds := r.rebounds, assists := r.assists } :: xs
    else x :: upsertTgsRow xs r

/-- `team_map` lookup (a Python dict keyed by provider team id; the source
rows come from a relation unique on that key). -/
def teamMapGet : List (String × String) → String → Option String
  | [], _ => none
  | kv :: rest, provId => if kv.1 == provId then some kv.2 else teamMapGet rest provId

/-- First pair whose second component matches, returning the first. -/
def assocFindBySnd : List (String × String) → String → Option String
  | [], _ => none
  | kv :: rest, v => if kv.2 == v then some kv.1 else assocFindBySnd rest v

/-- `reverse_team_map = {v: k for k, v in team_map.items()}`: a later
entry with the same value overwrites an earlier one, so the reverse lookup
takes the last matching pair. -/
def reverseTeamMapGet (tm : List (String × String)) (internalId : String) : Option String :=
  assocFindBySnd tm.reverse internalId

/-! ## Merge policy of `UPSERT_GAME_SQL` (`seed_games_nba.py`) -/

/-- The status values the `status` CASE of `UPSERT_GAME_SQL` recognises. -/
def knownStatuses : List String :=
  ["Final", "Scheduled", "InProgress", "Postponed", "Cancelled"]

/-- The `status = CASE ... END` expression of `UPSERT_GAME_SQL`: take the
incoming status if the stored one is null or unrecognised, promote
`Scheduled`/`InProgress` to `Final`, otherwise keep the stored status. -/
def mergeStatus (old : Option String) (new : String) : String :=
  match old with
  | none => new
  | some o =>
    if knownStatuses.contains o = false then new
    else if o = "Scheduled" ∧ new = "Final" then new
    else if o = "InProgress" ∧ new = "Final" then new
    else o

/-- The `home_score`/`away_score` CASE of `UPSERT_GAME_SQL`: take the
incoming value if the stored one is null, or if the incoming one is
non-null; otherwise keep the stored value. -/
def mergeScore (old new : Option Int) : Option Int :=
  if old = none then new
  else if new ≠ none then new
  else old

/-- The values bound into `UPSERT_GAME_SQL` by `upsert_game`
(a `NormalizedGame` restricted to the claim-relevant columns). -/
structure NormalizedGame where
  game_id : String
  season : String
  start_time : Int
  status_text : String
  status_id : Int
  home_team_internal_id : String
  away_team_internal_id : String
  home_score : Option Int
  away_score : Option Int
  arena : Option String
deriving DecidableEq

/-- The `do update set` arm of `UPSERT_GAME_SQL` applied to the conflicting
stored row. -/
def applyGameUpsert (row : GameRow) (g : NormalizedGame) : GameRow :=
  { game_id := row.game_id
    season := g.season
    start_time := g.start_time
    status := some (mergeStatus row.status g.status_text)
    home_team_id := g.home_team_internal_id
    away_team_id := g.away_team_internal_id
    home_score := mergeScore row.home_score g.home_score
    away_score := mergeScore row.away_score g.away_score
    venue := g.arena }

/-- The row inserted by `UPSERT_GAME_SQL` when there is no conflict. -/
def newGameRow (g : NormalizedGame) : GameRow :=
  { game_id := g.game_id, season := g.season, start_time := g.start_time
    status := some g.status_text
    home_team_id := g.home_team_internal_id, away_team_id := g.away_team_internal_id
    home_score := g.home_score, away_score := g.away_score, venue := g.arena }

/-- `UPSERT_GAME_SQL` as executed by `upsert_game` (`seed_games_nba.py`). -/
def upsert_game : List GameRow → NormalizedGame → List GameRow
  | [], g => [newGameRow g]
  | x :: xs, g =>
    if x.game_id == g.game_id then applyGameUpsert x g :: xs
    else x :: upsert_game xs g

/-! ## `upsert_boxscore_batch` (`seed_games_nba.py`)

Inserts every normalized player stat row and then, when any team total was
computed, issues
`update games set home_score = coalesce(%s, home_score), away_score =
coalesce(%s, away_score), status = %s where game_id = %s` — note that this
update assigns `status` unconditionally. -/

/-- A normalized player stat (`NormalizedPlayerStat`), restricted to the
claim-relevant columns. -/
structure NormalizedPlayerStat where
  game_id : String
  player_id : String
  team_internal_id : String
  minutes : Option ℚ
  points : Option Int
  rebounds : Option Int
  assists : Option Int
  started : Bool
  dnp_reason : Option String
deriving DecidableEq

/-- The `player_game_stats` row written for a normalized stat. -/
def pgsRowOfStat (s : NormalizedPlayerStat) : PgsRow :=
  { game_id := s.game_id, player_id := s.player_id, team_id := s.team_internal_id
    minutes := s.minutes, points := s.points, rebounds := s.rebounds
    assists := s.assists, started := s.started, dnp_reason := s.dnp_reason }

/-- One step of the `points_by_team` dict accumulation:
`points_by_team[team] = points_by_team.get(team, 0) + points`. -/
def addPoints : List (String × Int) → String → Int → List (String × Int)
  | [], team, p => [(team, p)]
  | kv :: rest, team, p =>
    if kv.1 == team then (kv.1, kv.2 + p) :: rest
    else kv :: addPoints rest team p

/-- The `points_by_team` dict built by `upsert_boxscore_batch` (only stats
with non-null `points` contribute). -/
def points_by_team (stats : List NormalizedPlayerStat) : List (String × Int) :=
  stats.foldl
    (fun acc s => match s.points with
      | some p => addPoints acc s.team_internal_id p
      | none => acc)
    []

/-- Python `dict.get(key)` on the accumulated totals. -/
def dictGet : List (String × Int) → String → Option Int
  | [], _ => none
  | kv :: rest, k => if kv.1 == k then some kv.2 else dictGet rest k

/-- SQL `coalesce(a, b)`. -/
def coalesce (a b : Option Int) : Option Int :=
  match a with
  | some v => some v
  | none => b

/-- The `update games set ... status = %s ...` statement issued at the end
of `upsert_boxscore_batch` (applied to every row matching `game_id`). -/
def applyScoreUpdate (games : List GameRow) (gid : String)
    (hp ap : Option Int) (statusText : String) : List GameRow :=
  games.map (fun r =>
    if r.game_id == gid then
      { r with home_score := coalesce hp r.home_score,
               away_score := coalesce ap r.away_score,
               status := some statusText }
    else r)

/-- `upsert_boxscore_batch` (`seed_games_nba.py`): upsert each stat row,
then update the scores and status of the game if any team total was found. -/
def upsert_boxscore_batch (db : DB) (stats : List NormalizedPlayerStat)
    (g : NormalizedGame) : DB :=
  let db1 := { db with pgs := stats.foldl (fun t s => upsertPgsRow t (pgsRowOfStat s)) db.pgs }
  let pts := points_by_team stats
  let hp := dictGet pts g.home_team_internal_id
  let ap := dictGet pts g.away_team_internal_id
  if hp = none ∧ ap = none then db1
  else { db1 with games := applyScoreUpdate db1.games g.game_id hp ap g.status_text }

/-! ## `seed-nba-then-crossref-bdl.py`: game upsert and BDL cross-linking

The JSON metadata payloads are abbreviated to flat strings; their content
plays no role in any property proved here. -/

/-- Metadata written with a player row seeded from a box score. -/
def metaSeededFromBoxscore : String := "source: nba_api, seeded_from_boxscore"

/-- Metadata written when an NBA Stats player id is linked to an existing
player found by name. -/
def metaLinkedToExisting : String :=
  "source: nba_api, seeded_from_boxscore, linked_to_existing"

/-- Metadata written with a game seeded from the scoreboard. -/
def metaNbaScoreboard : String := "source: nba_stats, seeded_from_scoreboard"

/-- Metadata of the `balldontlie` mapping row written by
`create_bdl_mapping`. -/
def metaBdlCrossref : String :=
  "source: balldontlie, cross_referenced_from: nba_stats, matched_by: date_and_teams"

/-- Metadata of the `nba` mapping row written by `create_bdl_mapping`. -/
def metaNbaCrossref : String :=
  "source: nba_stats, cross_referenced_from: balldontlie, matched_by: date_and_teams"

/-- A parsed `GameHeader` from the scoreboard endpoint, with team ids
already stringified and the datetime parse abstracted to `start_time`. -/
structure ScoreboardGameHeader where
  game_id : String
  game_status_text : String
  game_status_id : Int
  start_time : Int
  home_team_id : String
  visitor_team_id : String
  arena_name : Option String
deriving DecidableEq

/-- The games upsert of `upsert_nba_game`
(`seed-nba-then-crossref-bdl.py`): `on conflict (game_id) do update set`
assigns every column from `excluded`, with no merge policy. -/
def upsertGameOverwrite : List GameRow → GameRow → List GameRow
  | [], r => [r]
  | x :: xs, r =>
    if x.game_id == r.game_id then
      { x with season := r.season, start_time := r.start_time, status := r.status,
               home_team_id := r.home_team_id, away_team_id := r.away_team_id,
               home_score := r.home_score, away_score := r.away_score,
               venue := r.venue } :: xs
    else x :: upsertGameOverwrite xs r

/-- `upsert_nba_game` (`seed-nba-then-crossref-bdl.py`): resolve the team
mappings (returning `False` if either is missing), upsert the games row —
passing `None` for both scores — and upsert the `nba` provider mapping. -/
def upsert_nba_game (db : DB) (g : ScoreboardGameHeader)
    (tm : List (String × String)) (season : String) : Bool × DB :=
  match teamMapGet tm g.home_team_id, teamMapGet tm g.visitor_team_id with
  | some homeId, some awayId =>
    let games1 := upsertGameOverwrite db.games
      { game_id := g.game_id, season := season, start_time := g.start_time
        status := some g.game_status_text
        home_team_id := homeId, away_team_id := awayId
        home_score := none, away_score := none, venue := g.arena_name }
    let pim1 := upsertPimUpdate db.pim
      ⟨"game", g.game_id, "nba", g.game_id, metaNbaScoreboard⟩
    (true, { db with games := games1, pim := pim1 })
  | _, _ => (false, db)

/-- `create_bdl_mapping` (`seed-nba-then-crossref-bdl.py`): write the
`balldontlie` row `(game, balldontlie, bdl_game_id) → nba_game_id`, then
the `nba` row `(game, nba, nba_game_id) → bdl_game_id`. -/
def create_bdl_mapping (pim : List PimRow) (nba_game_id bdl_game_id : String) : List PimRow :=
  upsertPimUpdate
    (upsertPimUpdate pim ⟨"game", nba_game_id, "balldontlie", bdl_game_id, metaBdlCrossref⟩)
    ⟨"game", bdl_game_id, "nba", nba_game_id, metaNbaCrossref⟩

/-! ## Player resolution (`seed_boxscores_nba.py`, `resolve_player_internal_id`)

Returns the internal id, the updated database, and the number of write
statements executed. -/

/-- The name-based secondary match: `select player_id from players where
(first_name ilike %s and last_name ilike %s) or full_name ilike %s limit 1`
with the literal first/last tokens, and the full name wrapped in percent
wildcards for the substring alternative. -/
def playerNameMatch (p : PlayerRow) (firstName lastName fullName : String) : Bool :=
  (match p.first_name, p.last_name with
    | some f, some l => lowerStr f == lowerStr firstName && lowerStr l == lowerStr lastName
    | _, _ => false)
  || containsCI p.full_name fullName

/-- See `playerNameMatch`: first matching row wins, as the unordered
`limit 1` does in practice. -/
def findPlayerByName : List PlayerRow → String → String → String → Option PlayerRow
  | [], _, _, _ => none
  | p :: ps, firstName, lastName, fullName =>
    if playerNameMatch p firstName lastName fullName then some p
    else findPlayerByName ps firstName lastName fullName

/-- The final creation branch of `resolve_player_internal_id`: insert the
player (NBA Stats id as internal id, name split into first/last) and the
provider mapping row. -/
def createPlayerAndMapping (db : DB) (pid name : String) : String × DB × Nat :=
  let parts := splitWs name
  let firstName := parts.head?
  let lastName := if parts.length > 1 then parts.getLast? else none
  let players1 := upsertPlayerUpdate db.players ⟨pid, name, firstName, lastName⟩
  let pim1 := upsertPimUpdate db.pim ⟨"player", pid, "nba", pid, metaSeededFromBoxscore⟩
  (pid, { db with players := players1, pim := pim1 }, 2)

/-- The fallback of `resolve_player_internal_id` when no usable provider
mapping exists: try the name-based match (only for names of at least two
whitespace-separated tokens), linking to the found player, else create. -/
def linkOrCreatePlayer (db : DB) (pid name : String) : String × DB × Nat :=
  let parts := splitWs name
  if parts.length ≥ 2 then
    match findPlayerByName db.players (parts.head?.getD "") (parts.getLast?.getD "") name with
    | some p =>
      (p.player_id,
       { db with pim := upsertPimUpdate db.pim ⟨"player", p.player_id, "nba", pid, metaLinkedToExisting⟩ },
       1)
    | none => createPlayerAndMapping db pid name
  else createPlayerAndMapping db pid name

/-- `resolve_player_internal_id` (`seed_boxscores_nba.py`): provider-map
lookup with a player-existence check, name-based linking fallback, and
creation as last resort. -/
def resolve_player_internal_id (db : DB) (pid name : String) : String × DB × Nat :=
  match lookupPim db.pim "player" "nba" pid with
  | some iid =>
    if db.players.any (fun p => p.player_id == iid) then (iid, db, 0)
    else linkOrCreatePlayer db pid name
  | none => linkOrCreatePlayer db pid name

/-- `resolve_player_internal_id` (`seed_games_nba.py`): simpler variant —
no player-existence check and no name-based fallback; the player insert is
`on conflict do nothing`. -/
def resolve_player_internal_id_g (db : DB) (pid name : String) : String × DB :=
  match lookupPim db.pim "player" "nba" pid with
  | some iid => (iid, db)
  | none =>
    let parts := splitWs name
    let firstName := parts.head?
    let lastName := if parts.length > 1 then parts.getLast? else none
    let players1 := upsertPlayerNothing db.players ⟨pid, name, firstName, lastName⟩
    let pim1 := upsertPimUpdate db.pim ⟨"player", pid, "nba", pid, metaSeededFromBoxscore⟩
    (pid, { db with players := players1, pim := pim1 })

/-! ## `seed_games_nba.py`: team-mapping resolution and the main loop -/

/-- `resolve_team_mapping`: read all `(provider_id, internal_id)` pairs for
`entity_type = team, provider = nba`; raise (modelled as `Except.error`)
when the mapping is empty. -/
def resolve_team_mapping (pim : List PimRow) : Except String (List (String × String)) :=
  let mapping := (pim.filter (fun r => r.entity_type == "team" && r.provider == "nba")).map
    (fun r => (r.provider_id, r.internal_id))
  if mapping.isEmpty then
    Except.error "No team mappings found for provider=nba. Seed provider_id_map first."
  else Except.ok mapping

/-- A raw per-player box-score line, as produced by the scoreboard/V3
box-score fetchers of both seeders (ids already stringified). -/
structure RawPlayerLine where
  game_id : String
  team_id : String
  player_id : String
  player_name : String
  start_position : Option String
  comment : Option String
  minutes : Option String
  pts : Option ℚ
  reb : Option ℚ
  ast : Option ℚ
deriving DecidableEq

/-- `normalize_game` (`seed_games_nba.py`): resolve both team mappings
(raising — modelled as `none` — when either is missing) and build the
normalized game with null scores. -/
def normalize_game (raw : ScoreboardGameHeader) (tm : List (String × String))
    (season : String) : Option NormalizedGame :=
  match teamMapGet tm raw.home_team_id, teamMapGet tm raw.visitor_team_id with
  | some homeId, some awayId =>
    some { game_id := raw.game_id, season := season, start_time := raw.start_time
           status_text := raw.game_status_text, status_id := raw.game_status_id
           home_team_internal_id := homeId, away_team_internal_id := awayId
           home_score := none, away_score := none, arena := raw.arena_name }
  | _, _ => none

/-- `normalize_player_stat` (`seed_games_nba.py`): skip rows whose team has
no mapping, resolve the player (which may write), parse minutes, and build
the normalized stat. -/
def normalize_player_stat (db : DB) (tm : List (String × String))
    (s : RawPlayerLine) : Option NormalizedPlayerStat × DB :=
  match teamMapGet tm s.team_id with
  | none => (none, db)
  | some teamInternal =>
    let r := resolve_player_internal_id_g db s.player_id s.player_name
    let minutesDec := parse_minutes_to_decimal s.minutes
    (some { game_id := s.game_id, player_id := r.1, team_internal_id := teamInternal
            minutes := minutesDec, points := to_int s.pts, rebounds := to_int s.reb
            assists := to_int s.ast, started := truthyStr s.start_position
            dnp_reason := dnpReason minutesDec s.comment },
     r.2)

/-- Normalize a fetched box score line by line, threading the database
through the per-player resolution writes and dropping skipped rows. -/
def normalize_stats (db : DB) (tm : List (String × String)) :
    List RawPlayerLine → List NormalizedPlayerStat × DB
  | [] => ([], db)
  | s :: rest =>
    match normalize_player_stat db tm s with
    | (none, db1) =>
      normalize_stats db1 tm rest
    | (some n, db1) =>
      let r := normalize_stats db1 tm rest
      (n :: r.1, r.2)

/-- The per-date loop of `main` in `seed_games_nba.py`: normalize each game
(an unmapped team raises out of the loop, reaching the top-level handler
that exits 1), upsert it, and for games at or past `status_id = 2` push the
fetched box score through `upsert_boxscore_batch`. -/
def run_games (db : DB) (tm : List (String × String)) (season : String) :
    List (ScoreboardGameHeader × List RawPlayerLine) → Nat × DB
  | [] => (0, db)
  | (raw, box) :: rest =>
    match normalize_game raw tm season with
    | none => (1, db)
    | some g =>
      let db1 := { db with games := upsert_game db.games g }
      let db2 :=
        if g.status_id ≥ 2 then
          let ns := normalize_stats db1 tm box
          upsert_boxscore_batch ns.2 ns.1 g
        else db1
      run_games db2 tm season rest

/-- `main` of `seed_games_nba.py` reduced to its database behaviour: resolve
the team mapping first — an empty mapping raises, is caught by the
top-level handler, and the process exits 1 without touching any table —
then run the per-date loop.  Result: `(exit code, final database)`. -/
def seed_games_run (db : DB) (season : String)
    (sched : List (ScoreboardGameHeader × List RawPlayerLine)) : Nat × DB :=
  match resolve_team_mapping db.pim with
  | Except.error _ => (1, db)
  | Except.ok tm => run_games db tm season sched

/-! ## `seed_boxscores_nba.py`: player upserts, aggregation, team upserts -/

/-- `upsert_player_game_stats`: for each line, skip unmapped teams, resolve
the player id (which may write), and upsert the stat row keyed by the
internal game id.  Returns the database and the `inserted` count. -/
def upsertPgsStep (gid : String) (tm : List (String × String))
    (acc : DB × Nat) (s : RawPlayerLine) : DB × Nat :=
  match teamMapGet tm s.team_id with
  | none => acc
  | some teamInternal =>
    let r := resolve_player_internal_id acc.1 s.player_id s.player_name
    let minutesDec := parse_minutes_to_decimal s.minutes
    let row : PgsRow :=
      { game_id := gid, player_id := r.1, team_id := teamInternal
        minutes := minutesDec, points := to_int s.pts, rebounds := to_int s.reb
        assists := to_int s.ast, started := truthyStr s.start_position
        dnp_reason := dnpReason minutesDec s.comment }
    ({ r.2.1 with pgs := upsertPgsRow r.2.1.pgs row }, acc.2 + 1)

/-- See `upsertPgsStep` for the per-line body. -/
def upsert_player_game_stats (db : DB) (gid : String) (stats : List RawPlayerLine)
    (tm : List (String × String)) : DB × Nat :=
  stats.foldl (upsertPgsStep gid tm) (db, 0)

/-- SQL `SUM` over a nullable integer column: nulls are skipped and the
sum of no non-null values is null. -/
def sqlSumInt (l : List (Option Int)) : Option Int :=
  l.foldl
    (fun acc x => match x with
      | none => acc
      | some v => some (acc.getD 0 + v))
    none

/-- One aggregated team line (`aggregate_team_stats_from_players` builds a
dict of these keyed by provider team id; `row or 0` turns a null sum
into 0). -/
structure TeamAgg where
  internal_team_id : String
  points : Int
  rebounds : Int
  assists : Int
deriving DecidableEq

/-- The distinct keys produced by `GROUP BY team_id` (grouping order is
irrelevant to every property proved here). -/
def distinctKeys : List String → List String
  | [] => []
  | x :: xs => if xs.contains x then distinctKeys xs else x :: distinctKeys xs

/-- `aggregate_team_stats_from_players` (`seed_boxscores_nba.py`):
`SELECT team_id, SUM(points), ... FROM player_game_stats WHERE game_id = %s
AND dnp_reason IS NULL GROUP BY team_id`, re-keyed by provider team id via
the reversed team map; teams without a reverse mapping are skipped. -/
def aggregate_team_stats_from_players (pgs : List PgsRow) (gid : String)
    (tm : List (String × String)) : List (String × TeamAgg) :=
  let rows := pgs.filter (fun r => r.game_id == gid && r.dnp_reason == none)
  let teams := distinctKeys (rows.map (fun r => r.team_id))
  teams.filterMap (fun t =>
    match reverseTeamMapGet tm t with
    | none => none
    | some provId =>
      some (provId,
        { internal_team_id := t
          points := (sqlSumInt ((rows.filter (fun r => r.team_id == t)).map
            (fun r => r.points))).getD 0
          rebounds := (sqlSumInt ((rows.filter (fun r => r.team_id == t)).map
            (fun r => r.rebounds))).getD 0
          assists := (sqlSumInt ((rows.filter (fun r => r.team_id == t)).map
            (fun r => r.assists))).getD 0 }))

/-- The per-team loop body of `upsert_team_game_stats`. -/
def upsertTgsStep (gid : String) (gi : GameRow)
    (acc : List TgsRow × Nat) (pa : String × TeamAgg) : List TgsRow × Nat :=
  let a := pa.2
  let row : TgsRow :=
    { game_id := gid, team_id := a.internal_team_id
      is_home := a.internal_team_id == gi.home_team_id
      points := a.points, rebounds := a.rebounds, assists := a.assists }
  (upsertTgsRow acc.1 row, acc.2 + 1)

/-- `upsert_team_game_stats` (`seed_boxscores_nba.py`): look up the game for
home/away, then upsert one `team_game_stats` row per aggregated team.
Returns the database and the inserted count. -/
def upsert_team_game_stats (db : DB) (gid : String)
    (teamStats : List (String × TeamAgg)) : DB × Nat :=
  match findGame db.games gid with
  | none => (db, 0)
  | some gi =>
    let res := teamStats.foldl (upsertTgsStep gid gi) (db.tgs, 0)
    ({ db with tgs := res.1 }, res.2)

/-- `process_game` (`seed_boxscores_nba.py`) restricted to its database
effects: upsert the player lines; if nothing was inserted stop, otherwise
aggregate team totals from `player_game_stats` and upsert them. -/
def process_game_stats (db : DB) (gid : String) (raw : List RawPlayerLine)
    (tm : List (String × String)) : DB :=
  let r1 := upsert_player_game_stats db gid raw tm
  if r1.2 = 0 then r1.1
  else
    let agg := aggregate_team_stats_from_players r1.1.pgs gid tm
    (upsert_team_game_stats r1.1 gid agg).1

/-! ## `copy-stats-to-bdl-games.py`: copying child rows between game ids -/

/-- `INSERT INTO player_game_stats SELECT %s as game_id, ... FROM
player_game_stats WHERE game_id = %s ON CONFLICT (game_id, player_id) DO
NOTHING`: each source row is retagged with the destination game id and
appended only when its key is still absent. -/
def copyRowsPgs (dest : List PgsRow) (src : List PgsRow) (bdl : String) : List PgsRow :=
  src.foldl
    (fun acc r =>
      if acc.any (fun x => x.game_id == bdl && x.player_id == r.player_id) then acc
      else acc ++ [{ r with game_id := bdl }])
    dest

/-- `copy_player_stats` (`copy-stats-to-bdl-games.py`). -/
def copy_player_stats (pgs : List PgsRow) (bdl nba : String) : List PgsRow :=
  copyRowsPgs pgs (pgs.filter (fun r => r.game_id == nba)) bdl

/-- The `team_game_stats` analogue of `copyRowsPgs`, with conflict key
`(game_id, team_id)`. -/
def copyRowsTgs (dest : List TgsRow) (src : List TgsRow) (bdl : String) : List TgsRow :=
  src.foldl
    (fun acc r =>
      if acc.any (fun x => x.game_id == bdl && x.team_id == r.team_id) then acc
      else acc ++ [{ r with game_id := bdl }])
    dest

/-- `copy_team_stats` (`copy-stats-to-bdl-games.py`). -/
def copy_team_stats (tgs : List TgsRow) (bdl nba : String) : List TgsRow :=
  copyRowsTgs tgs (tgs.filter (fun r => r.game_id == nba)) bdl

/-! ## Concrete fixtures used by the counterexamples and witnesses -/

/-- Database: one game already stored as `Final` with both scores set, and
the `nba` team mappings seeded. -/
def c1Db : DB :=
  { players := []
    pim := [⟨"team", "BOS", "nba", "1610612738", "seed"⟩,
            ⟨"team", "MIA", "nba", "1610612748", "seed"⟩]
    games := [⟨"0022500001", "2025-26", 0, some "Final", "BOS", "MIA", some 112, some 108, none⟩]
    pgs := []
    tgs := [] }

/-- An incoming scoreboard header for the same game with the lesser status
`InProgress` (`GAME_STATUS_ID = 2`). -/
def c1Header : ScoreboardGameHeader :=
  ⟨"0022500001", "InProgress", 2, 0, "1610612738", "1610612748", none⟩

/-- One fetched box-score line carrying points for the home team. -/
def c1Box : List RawPlayerLine :=
  [⟨"0022500001", "1610612738", "201935", "James Harden", some "G", none,
    some "20:00", some 12, some 3, some 5⟩]

/-- Database with a stored `Final` game with both scores non-null. -/
def c2Db : DB :=
  { players := []
    pim := []
    games := [⟨"0022500002", "2025-26", 0, some "Final", "BOS", "MIA", some 112, some 108, none⟩]
    pgs := []
    tgs := [] }

/-- Team map of `seed-nba-then-crossref-bdl.py` for the two teams. -/
def c2Tm : List (String × String) := [("1610612738", "BOS"), ("1610612748", "MIA")]

/-- An incoming header for the stored game (the script always binds `None`
for both scores). -/
def c2Header : ScoreboardGameHeader :=
  ⟨"0022500002", "Final", 3, 0, "1610612738", "1610612748", none⟩

/-- Provider map before reconciliation: the NBA Stats game mapped to itself
(as `upsert_nba_game` writes it). -/
def c5Pim : List PimRow :=
  [⟨"game", "0022500001", "nba", "0022500001", metaNbaScoreboard⟩]

/-- Database for the aggregation counterexample: one `Final` game, no
stats yet. -/
def c6Db : DB :=
  { players := []
    pim := []
    games := [⟨"184001", "2025-26", 0, some "Final", "BOS", "MIA", none, none, none⟩]
    pgs := []
    tgs := [] }

/-- Team map for the aggregation counterexample. -/
def c6Tm : List (String × String) := [("1610612738", "BOS"), ("1610612748", "MIA")]

/-- Fetched box-score lines: a regular line with 31 points, and a line
with null minutes, a non-empty comment and 7 points — the provider payload
is not validated, so the seeder stores it with a non-null `dnp_reason`. -/
def c6Raw : List RawPlayerLine :=
  [⟨"184001", "1610612738", "1629029", "Luka Doncic", some "G", none,
    some "34:30", some 31, some 8, some 9⟩,
   ⟨"184001", "1610612738", "1641705", "Dex Injured", none, some "DNP - Injury",
    none, some 7, none, none⟩]

/-- Database whose `provider_id_map` has rows, but none with
`entity_type = team` and `provider = nba`. -/
def c7Db : DB :=
  { players := []
    pim := [⟨"player", "201935", "nba", "201935", "seed"⟩,
            ⟨"team", "BOS", "balldontlie", "2", "seed"⟩]
    games := []
    pgs := []
    tgs := [] }

/-- A non-empty schedule that `seed_games_run` would process if the team
mapping were present. -/
def c7Sched : List (ScoreboardGameHeader × List RawPlayerLine) :=
  [(⟨"0022500003", "Final", 3, 0, "1610612738", "1610612748", none⟩, [])]

/-- `player_game_stats` fixture: the NBA Stats game `002A` has a row for
`p1` and `p2`; the BallDontLie game `184B` already has its own row for
`p1` with different values. -/
def c8Pgs : List PgsRow :=
  [⟨"002A", "p1", "T1", none, some 10, some 2, some 1, true, none⟩,
   ⟨"002A", "p2", "T1", none, some 20, some 4, some 2, false, none⟩,
   ⟨"184B", "p1", "T1", none, some 99, none, none, false, none⟩]

/-- `team_game_stats` fixture: the source game has one team row and the
destination already has a row for the same team. -/
def c8Tgs : List TgsRow :=
  [⟨"002A", "T1", true, 110, 40, 25⟩,
   ⟨"184B", "T1", true, 7, 7, 7⟩]

/-- Players table containing a player whose `full_name` is exactly the
single-token name about to be resolved (under a different internal id). -/
def c9Db : DB :=
  { players := [⟨"7777", "Nene", some "Nene", none⟩]
    pim := []
    games := []
    pgs := []
    tgs := [] }

/-- Resolver state for the idempotence witness: empty database. -/
def c4Db : DB := { players := [], pim := [], games := [], pgs := [], tgs := [] }

/-- Game-upsert input used by the merge-policy witnesses: a later fetch of
a stored `Final` game, carrying status `Scheduled` and null scores. -/
def cW1Game : NormalizedGame :=
  { game_id := "0022500001", season := "2025-26", start_time := 5
    status_text := "Scheduled", status_id := 1
    home_team_internal_id := "BOS", away_team_internal_id := "MIA"
    home_score := none, away_score := none, arena := some "TD Garden" }

/-- Stored games-table fixture for the merge-policy witnesses. -/
def cW1Games : List GameRow :=
  [⟨"0022500001", "2025-26", 0, some "Final", "BOS", "MIA", some 112, some 108, none⟩]


/-! # Theorems -/

/-! ## Table lemmas: lookups against the conflict-keyed upserts -/

theorem findGame_upsert_game (games : List GameRow) (g : NormalizedGame) (r : GameRow)
    (h : findGame games g.game_id = some r) :
    findGame (upsert_game games g) g.game_id = some (applyGameUpsert r g) := by
  induction games with
  | nil => simp [findGame] at h
  | cons x xs ih =>
    by_cases hx : (x.game_id == g.game_id) = true
    · simp only [findGame, hx, if_true, Option.some.injEq] at h
      subst h
      have hkeep : ((applyGameUpsert x g).game_id == g.game_id) = true := by
        simpa [applyGameUpsert] using hx
      simp [upsert_game, findGame, hx, hkeep]
    · have hx' : (x.game_id == g.game_id) = false := by simpa using hx
      simp only [findGame, hx', Bool.false_eq_true, if_false] at h
      simp [upsert_game, findGame, hx', ih h]

theorem mergeStatus_of_final (s : String) : mergeStatus (some "Final") s = "Final" := by
  have h1 : "Final" ∈ knownStatuses := by decide
  simp [mergeStatus, h1]

theorem mergeScore_incoming_none (o : Option Int) : mergeScore o none = o := by
  cases o <;> simp [mergeScore]

theorem mergeScore_eq_none (o n : Option Int) (h : mergeScore o n = none) : o = none := by
  cases o with
  | none => rfl
  | some v => cases n <;> simp [mergeScore] at h

theorem lookupPim_upsertPimUpdate_self (pim : List PimRow) (r : PimRow) :
    lookupPim (upsertPimUpdate pim r) r.entity_type r.provider r.provider_id =
      some r.internal_id := by
  induction pim with
  | nil => simp [upsertPimUpdate, lookupPim]
  | cons x xs ih =>
    by_cases hk : pimKeyMatch x r = true
    · simp only [upsertPimUpdate, hk, if_true]
      have hc := hk
      rw [pimKeyMatch] at hc
      simp [lookupPim, hc]
    · have hk' : pimKeyMatch x r = false := by simpa using hk
      have hc : (x.entity_type == r.entity_type && x.provider == r.provider &&
          x.provider_id == r.provider_id) = false := by
        rw [pimKeyMatch] at hk'; exact hk'
      simp [upsertPimUpdate, hk', lookupPim, hc, ih]

theorem lookupPim_upsertPimUpdate_other (pim : List PimRow) (r : PimRow) (et prov pid : String)
    (h : ¬(r.entity_type = et ∧ r.provider = prov ∧ r.provider_id = pid)) :
    lookupPim (upsertPimUpdate pim r) et prov pid = lookupPim pim et prov pid := by
  induction pim with
  | nil =>
    have hc : (r.entity_type == et && r.provider == prov && r.provider_id == pid) = false := by
      cases hb : (r.entity_type == et && r.provider == prov && r.provider_id == pid) with
      | false => rfl
      | true =>
        have hx : (r.entity_type = et ∧ r.provider = prov) ∧ r.provider_id = pid := by
          simpa using hb
        exact absurd ⟨hx.1.1, hx.1.2, hx.2⟩ h
    simp [upsertPimUpdate, lookupPim, hc]
  | cons x xs ih =>
    by_cases hk : pimKeyMatch x r = true
    · have hkx : (x.entity_type = r.entity_type ∧ x.provider = r.provider) ∧
          x.provider_id = r.provider_id := by
        have hh := hk
        rw [pimKeyMatch] at hh
        simpa using hh
      simp only [upsertPimUpdate, hk, if_true]
      by_cases hq : (x.entity_type == et && x.provider == prov && x.provider_id == pid) = true
      · have hx : (x.entity_type = et ∧ x.provider = prov) ∧ x.provider_id = pid := by
          simpa using hq
        exact absurd ⟨hkx.1.1.symm.trans hx.1.1, hkx.1.2.symm.trans hx.1.2,
          hkx.2.symm.trans hx.2⟩ h
      · have hq' : (x.entity_type == et && x.provider == prov && x.provider_id == pid) = false := by
          simpa using hq
        simp [lookupPim, hq']
    · have hk' : pimKeyMatch x r = false := by simpa using hk
      simp only [upsertPimUpdate, hk', Bool.false_eq_true, if_false]
      by_cases hq : (x.entity_type == et && x.provider == prov && x.provider_id == pid) = true
      · simp [lookupPim, hq]
      · have hq' : (x.entity_type == et && x.provider == prov && x.provider_id == pid) = false := by
          simpa using hq
        simp [lookupPim, hq', ih]

theorem findPlayer_upsertPlayerUpdate_self (ps : List PlayerRow) (p : PlayerRow) :
    findPlayer (upsertPlayerUpdate ps p) p.player_id =
      some ⟨p.player_id, p.full_name, p.first_name, p.last_name⟩ := by
  induction ps with
  | nil => simp [upsertPlayerUpdate, findPlayer]
  | cons x xs ih =>
    by_cases hx : (x.player_id == p.player_id) = true
    · have hxe : x.player_id = p.player_id := by simpa using hx
      simp [upsertPlayerUpdate, hx, findPlayer, hxe]
    · have hx' : (x.player_id == p.player_id) = false := by simpa using hx
      simp [upsertPlayerUpdate, hx', findPlayer, ih]

theorem findPlayer_isSome_any (ps : List PlayerRow) (pid : String) (r : PlayerRow)
    (h : findPlayer ps pid = some r) : ps.any (fun x => x.player_id == pid) = true := by
  induction ps with
  | nil => simp [findPlayer] at h
  | cons x xs ih =>
    by_cases hx : (x.player_id == pid) = true
    · simp [hx]
    · have hx' : (x.player_id == pid) = false := by simpa using hx
      simp only [findPlayer, hx', Bool.false_eq_true, if_false] at h
      simp [hx', ih h]

theorem findPlayerByName_any (ps : List PlayerRow) (fN lN full : String) (p : PlayerRow)
    (h : findPlayerByName ps fN lN full = some p) :
    ps.any (fun x => x.player_id == p.player_id) = true := by
  induction ps with
  | nil => simp [findPlayerByName] at h
  | cons x xs ih =>
    by_cases hm : playerNameMatch x fN lN full = true
    · simp only [findPlayerByName, hm, if_true, Option.some.injEq] at h
      subst h
      simp
    · have hm' : playerNameMatch x fN lN full = false := by simpa using hm
      simp only [findPlayerByName, hm', Bool.false_eq_true, if_false] at h
      simp [ih h]

/-! ## Resolver post-state: after resolution the mapping row exists and
points at an existing player -/

theorem createPlayerAndMapping_post (db : DB) (pid name : String) :
    lookupPim (createPlayerAndMapping db pid name).2.1.pim "player" "nba" pid
      = some (createPlayerAndMapping db pid name).1 ∧
    (createPlayerAndMapping db pid name).2.1.players.any
      (fun x => x.player_id == (createPlayerAndMapping db pid name).1) = true := by
  constructor
  · have h := lookupPim_upsertPimUpdate_self db.pim
      ⟨"player", pid, "nba", pid, metaSeededFromBoxscore⟩
    simpa [createPlayerAndMapping] using h
  · have hf := findPlayer_upsertPlayerUpdate_self db.players
      ⟨pid, name, (splitWs name).head?,
        if (splitWs name).length > 1 then (splitWs name).getLast? else none⟩
    have ha := findPlayer_isSome_any _ _ _ hf
    simpa [createPlayerAndMapping] using ha

theorem linkOrCreatePlayer_post (db : DB) (pid name : String) :
    lookupPim (linkOrCreatePlayer db pid name).2.1.pim "player" "nba" pid
      = some (linkOrCreatePlayer db pid name).1 ∧
    (linkOrCreatePlayer db pid name).2.1.players.any
      (fun x => x.player_id == (linkOrCreatePlayer db pid name).1) = true := by
  by_cases hl : (splitWs name).length ≥ 2
  · cases hf : findPlayerByName db.players ((splitWs name).head?.getD "")
        ((splitWs name).getLast?.getD "") name with
    | none =>
      simp only [linkOrCreatePlayer, hl, if_true, hf]
      exact createPlayerAndMapping_post db pid name
    | some p =>
      simp only [linkOrCreatePlayer, hl, if_true, hf]
      constructor
      · exact lookupPim_upsertPimUpdate_self db.pim
          ⟨"player", p.player_id, "nba", pid, metaLinkedToExisting⟩
      · exact findPlayerByName_any _ _ _ _ _ hf
  · simp only [linkOrCreatePlayer, hl, if_false]
    exact createPlayerAndMapping_post db pid name

theorem resolve_player_internal_id_post (db : DB) (pid name : String) :
    lookupPim (resolve_player_internal_id db pid name).2.1.pim "player" "nba" pid
      = some (resolve_player_internal_id db pid name).1 ∧
    (resolve_player_internal_id db pid name).2.1.players.any
      (fun x => x.player_id == (resolve_player_internal_id db pid name).1) = true := by
  cases hl : lookupPim db.pim "player" "nba" pid with
  | none =>
    simp only [resolve_player_internal_id, hl]
    exact linkOrCreatePlayer_post db pid name
  | some iid =>
    by_cases ha : db.players.any (fun p => p.player_id == iid) = true
    · simp [resolve_player_internal_id, hl, ha]
    · have ha' : db.players.any (fun p => p.player_id == iid) = false := by simpa using ha
      simp only [resolve_player_internal_id, hl, ha', Bool.false_eq_true, if_false]
      exact linkOrCreatePlayer_post db pid name

/-! ## Frame lemmas: player-stat upserts leave the other tables alone -/

theorem linkOrCreatePlayer_preserves (db : DB) (pid name : String) :
    (linkOrCreatePlayer db pid name).2.1.tgs = db.tgs ∧
    (linkOrCreatePlayer db pid name).2.1.games = db.games := by
  by_cases hl : (splitWs name).length ≥ 2
  · cases hf : findPlayerByName db.players ((splitWs name).head?.getD "")
        ((splitWs name).getLast?.getD "") name with
    | none => simp [linkOrCreatePlayer, hl, hf, createPlayerAndMapping]
    | some p => simp [linkOrCreatePlayer, hl, hf]
  · simp [linkOrCreatePlayer, hl, createPlayerAndMapping]

theorem resolve_preserves (db : DB) (pid name : String) :
    (resolve_player_internal_id db pid name).2.1.tgs = db.tgs ∧
    (resolve_player_internal_id db pid name).2.1.games = db.games := by
  cases hl : lookupPim db.pim "player" "nba" pid with
  | none =>
    simp only [resolve_player_internal_id, hl]
    exact linkOrCreatePlayer_preserves db pid name
  | some iid =>
    by_cases ha : db.players.any (fun p => p.player_id == iid) = true
    · simp [resolve_player_internal_id, hl, ha]
    · have ha' : db.players.any (fun p => p.player_id == iid) = false := by simpa using ha
      simp only [resolve_player_internal_id, hl, ha', Bool.false_eq_true, if_false]
      exact linkOrCreatePlayer_preserves db pid name

theorem foldl_upsertPgsStep_preserves (gid : String) (tm : List (String × String))
    (stats : List RawPlayerLine) :
    ∀ p : DB × Nat, (stats.foldl (upsertPgsStep gid tm) p).1.tgs = p.1.tgs ∧
      (stats.foldl (upsertPgsStep gid tm) p).1.games = p.1.games := by
  induction stats with
  | nil => intro p; exact ⟨rfl, rfl⟩
  | cons s rest ih =>
    intro p
    rw [List.foldl_cons]
    have hstep : (upsertPgsStep gid tm p s).1.tgs = p.1.tgs ∧
        (upsertPgsStep gid tm p s).1.games = p.1.games := by
      cases hm : teamMapGet tm s.team_id with
      | none => simp [upsertPgsStep, hm]
      | some teamInternal =>
        simp only [upsertPgsStep, hm]
        exact resolve_preserves p.1 s.player_id s.player_name
    exact ⟨(ih (upsertPgsStep gid tm p s)).1.trans hstep.1,
           (ih (upsertPgsStep gid tm p s)).2.trans hstep.2⟩

theorem upsert_player_game_stats_tgs (db : DB) (gid : String) (raw : List RawPlayerLine)
    (tm : List (String × String)) :
    (upsert_player_game_stats db gid raw tm).1.tgs = db.tgs :=
  (foldl_upsertPgsStep_preserves gid tm raw (db, 0)).1

/-! ## Team-stat upsert: members of the written table satisfy the
aggregation invariant -/

theorem upsertTgsRow_mem (l : List TgsRow) (r : TgsRow) :
    ∀ x ∈ upsertTgsRow l r, x ∈ l ∨ x = r ∨
      ∃ y ∈ l, x = { y with points := r.points, rebounds := r.rebounds, assists := r.assists } ∧
        (y.game_id == r.game_id && y.team_id == r.team_id) = true := by
  induction l with
  | nil =>
    intro x hx
    simp only [upsertTgsRow] at hx
    rcases List.mem_singleton.mp hx with h
    exact Or.inr (Or.inl h)
  | cons y ys ih =>
    intro x hx
    by_cases hk : (y.game_id == r.game_id && y.team_id == r.team_id) = true
    · simp only [upsertTgsRow, hk, if_true] at hx
      rcases List.mem_cons.mp hx with h | h
      · exact Or.inr (Or.inr ⟨y, List.mem_cons_self y ys, h, hk⟩)
      · exact Or.inl (List.mem_cons_of_mem _ h)
    · have hk' : (y.game_id == r.game_id && y.team_id == r.team_id) = false := by simpa using hk
      simp only [upsertTgsRow, hk', Bool.false_eq_true, if_false] at hx
      rcases List.mem_cons.mp hx with h | h
      · exact Or.inl (h ▸ List.mem_cons_self y ys)
      · rcases ih x h with h1 | h2 | ⟨z, hz, he, hkk⟩
        · exact Or.inl (List.mem_cons_of_mem _ h1)
        · exact Or.inr (Or.inl h2)
        · exact Or.inr (Or.inr ⟨z, List.mem_cons_of_mem _ hz, he, hkk⟩)

theorem foldl_upsertTgsStep_inv (Q : String → Int → Prop) (gid : String) (gi : GameRow)
    (agg : List (String × TeamAgg))
    (hagg : ∀ pa ∈ agg, Q pa.2.internal_team_id pa.2.points) :
    ∀ p : List TgsRow × Nat, (∀ t ∈ p.1, t.game_id = gid → Q t.team_id t.points) →
      ∀ t ∈ (agg.foldl (upsertTgsStep gid gi) p).1, t.game_id = gid → Q t.team_id t.points := by
  induction agg with
  | nil => intro p hp; exact hp
  | cons pa rest ih =>
    intro p hp
    rw [List.foldl_cons]
    refine ih (fun x hx => hagg x (List.mem_cons_of_mem _ hx)) _ ?_
    intro t ht hgid
    have hrowQ : Q pa.2.internal_team_id pa.2.points := hagg pa (List.mem_cons_self pa rest)
    rcases upsertTgsRow_mem p.1 _ t ht with hin | heq | ⟨y, hy, he, hk⟩
    · exact hp t hin hgid
    · rw [heq]
      exact hrowQ
    · have hteam : y.team_id = pa.2.internal_team_id := by
        have hb : y.game_id = gid ∧ y.team_id = pa.2.internal_team_id := by
          simpa [upsertTgsStep] using hk
        exact hb.2
      rw [he]
      simpa [hteam] using hrowQ

theorem aggregate_points_spec (pgs : List PgsRow) (gid : String)
    (tm : List (String × String)) :
    ∀ pa ∈ aggregate_team_stats_from_players pgs gid tm,
      pa.2.points = (sqlSumInt (((pgs.filter
          (fun r => r.game_id == gid && r.dnp_reason == none)).filter
          (fun r => r.team_id == pa.2.internal_team_id)).map (fun r => r.points))).getD 0 := by
  intro pa hpa
  simp only [aggregate_team_stats_from_players] at hpa
  rcases List.mem_filterMap.mp hpa with ⟨t, ht, hf⟩
  cases hr : reverseTeamMapGet tm t with
  | none => rw [hr] at hf; simp at hf
  | some provId =>
    rw [hr] at hf
    simp only [Option.some.injEq] at hf
    subst hf
    rfl

/-! ## Copy lemmas: `insert ... select ... on conflict do nothing` -/

theorem copyRowsPgs_prefix (src : List PgsRow) (dest : List PgsRow) (bdl : String) :
    ∃ ext, copyRowsPgs dest src bdl = dest ++ ext := by
  induction src generalizing dest with
  | nil => exact ⟨[], by simp [copyRowsPgs]⟩
  | cons r rest ih =>
    have hstep : copyRowsPgs dest (r :: rest) bdl =
        copyRowsPgs
          (if dest.any (fun x => x.game_id == bdl && x.player_id == r.player_id) then dest
           else dest ++ [{ r with game_id := bdl }]) rest bdl := rfl
    rw [hstep]
    by_cases hg : dest.any (fun x => x.game_id == bdl && x.player_id == r.player_id) = true
    · simp only [hg, if_true]
      exact ih dest
    · have hg' : dest.any (fun x => x.game_id == bdl && x.player_id == r.player_id) = false := by
        simpa using hg
      simp only [hg', Bool.false_eq_true, if_false]
      obtain ⟨ext, he⟩ := ih (dest ++ [{ r with game_id := bdl }])
      exact ⟨{ r with game_id := bdl } :: ext, by simpa [List.append_assoc] using he⟩

theorem findPgs_append_some (l ext : List PgsRow) (gid pid : String) (r : PgsRow)
    (h : findPgs l gid pid = some r) : findPgs (l ++ ext) gid pid = some r := by
  induction l with
  | nil => simp [findPgs] at h
  | cons x xs ih =>
    by_cases hx : (x.game_id == gid && x.player_id == pid) = true
    · simp only [findPgs, hx, if_true] at h
      simp [findPgs, hx, h]
    · have hx' : (x.game_id == gid && x.player_id == pid) = false := by simpa using hx
      simp only [findPgs, hx', Bool.false_eq_true, if_false] at h
      simp [findPgs, hx', ih h]

theorem findPgs_none_iff (l : List PgsRow) (gid pid : String) :
    findPgs l gid pid = none ↔
      l.any (fun x => x.game_id == gid && x.player_id == pid) = false := by
  induction l with
  | nil => simp [findPgs]
  | cons x xs ih =>
    by_cases hx : (x.game_id == gid && x.player_id == pid) = true
    · simp [findPgs, hx]
    · have hx' : (x.game_id == gid && x.player_id == pid) = false := by simpa using hx
      simp [findPgs, hx', ih]

theorem copyRowsPgs_mem (src : List PgsRow) (dest : List PgsRow) (bdl : String) :
    ∀ x ∈ copyRowsPgs dest src bdl, x ∈ dest ∨ ∃ s ∈ src, x = { s with game_id := bdl } ∧
      dest.any (fun y => y.game_id == bdl && y.player_id == s.player_id) = false := by
  induction src generalizing dest with
  | nil =>
    intro x hx
    exact Or.inl (by simpa [copyRowsPgs] using hx)
  | cons r rest ih =>
    intro x hx
    have hstep : copyRowsPgs dest (r :: rest) bdl =
        copyRowsPgs
          (if dest.any (fun y => y.game_id == bdl && y.player_id == r.player_id) then dest
           else dest ++ [{ r with game_id := bdl }]) rest bdl := rfl
    rw [hstep] at hx
    by_cases hg : dest.any (fun y => y.game_id == bdl && y.player_id == r.player_id) = true
    · rw [if_pos hg] at hx
      rcases ih dest x hx with hin | ⟨s, hs, heq, hany⟩
      · exact Or.inl hin
      · exact Or.inr ⟨s, List.mem_cons_of_mem _ hs, heq, hany⟩
    · have hg' : dest.any (fun y => y.game_id == bdl && y.player_id == r.player_id) = false := by
        simpa using hg
      rw [if_neg (by simp [hg'])] at hx
      rcases ih (dest ++ [{ r with game_id := bdl }]) x hx with hin | ⟨s, hs, heq, hany⟩
      · rcases List.mem_append.mp hin with hd | hr
        · exact Or.inl hd
        · have hxr : x = { r with game_id := bdl } := by simpa using hr
          exact Or.inr ⟨r, List.mem_cons_self r rest, hxr, hg'⟩
      · have hany' : dest.any (fun y => y.game_id == bdl && y.player_id == s.player_id) = false := by
          have h2 := hany
          rw [List.any_append] at h2
          exact (Bool.or_eq_false_iff.mp h2).1
        exact Or.inr ⟨s, List.mem_cons_of_mem _ hs, heq, hany'⟩

theorem copyRowsTgs_prefix (src : List TgsRow) (dest : List TgsRow) (bdl : String) :
    ∃ ext, copyRowsTgs dest src bdl = dest ++ ext := by
  induction src generalizing dest with
  | nil => exact ⟨[], by simp [copyRowsTgs]⟩
  | cons r rest ih =>
    have hstep : copyRowsTgs dest (r :: rest) bdl =
        copyRowsTgs
          (if dest.any (fun x => x.game_id == bdl && x.team_id == r.team_id) then dest
           else dest ++ [{ r with game_id := bdl }]) rest bdl := rfl
    rw [hstep]
    by_cases hg : dest.any (fun x => x.game_id == bdl && x.team_id == r.team_id) = true
    · simp only [hg, if_true]
      exact ih dest
    · have hg' : dest.any (fun x => x.game_id == bdl && x.team_id == r.team_id) = false := by
        simpa using hg
      simp only [hg', Bool.false_eq_true, if_false]
      obtain ⟨ext, he⟩ := ih (dest ++ [{ r with game_id := bdl }])
      exact ⟨{ r with game_id := bdl } :: ext, by simpa [List.append_assoc] using he⟩

theorem findTgs_append_some (l ext : List TgsRow) (gid tid : String) (r : TgsRow)
    (h : findTgs l gid tid = some r) : findTgs (l ++ ext) gid tid = some r := by
  induction l with
  | nil => simp [findTgs] at h
  | cons x xs ih =>
    by_cases hx : (x.game_id == gid && x.team_id == tid) = true
    · simp only [findTgs, hx, if_true] at h
      simp [findTgs, hx, h]
    · have hx' : (x.game_id == gid && x.team_id == tid) = false := by simpa using hx
      simp only [findTgs, hx', Bool.false_eq_true, if_false] at h
      simp [findTgs, hx', ih h]

theorem findTgs_none_iff (l : List TgsRow) (gid tid : String) :
    findTgs l gid tid = none ↔
      l.any (fun x => x.game_id == gid && x.team_id == tid) = false := by
  induction l with
  | nil => simp [findTgs]
  | cons x xs ih =>
    by_cases hx : (x.game_id == gid && x.team_id == tid) = true
    · simp [findTgs, hx]
    · have hx' : (x.game_id == gid && x.team_id == tid) = false := by simpa using hx
      simp [findTgs, hx', ih]

theorem copyRowsTgs_mem (src : List TgsRow) (dest : List TgsRow) (bdl : String) :
    ∀ x ∈ copyRowsTgs dest src bdl, x ∈ dest ∨ ∃ s ∈ src, x = { s with game_id := bdl } ∧
      dest.any (fun y => y.game_id == bdl && y.team_id == s.team_id) = false := by
  induction src generalizing dest with
  | nil =>
    intro x hx
    exact Or.inl (by simpa [copyRowsTgs] using hx)
  | cons r rest ih =>
    intro x hx
    have hstep : copyRowsTgs dest (r :: rest) bdl =
        copyRowsTgs
          (if dest.any (fun y => y.game_id == bdl && y.team_id == r.team_id) then dest
           else dest ++ [{ r with game_id := bdl }]) rest bdl := rfl
    rw [hstep] at hx
    by_cases hg : dest.any (fun y => y.game_id == bdl && y.team_id == r.team_id) = true
    · rw [if_pos hg] at hx
      rcases ih dest x hx with hin | ⟨s, hs, heq, hany⟩
      · exact Or.inl hin
      · exact Or.inr ⟨s, List.mem_cons_of_mem _ hs, heq, hany⟩
    · have hg' : dest.any (fun y => y.game_id == bdl && y.team_id == r.team_id) = false := by
        simpa using hg
      rw [if_neg (by simp [hg'])] at hx
      rcases ih (dest ++ [{ r with game_id := bdl }]) x hx with hin | ⟨s, hs, heq, hany⟩
      · rcases List.mem_append.mp hin with hd | hr
        · exact Or.inl hd
        · have hxr : x = { r with game_id := bdl } := by simpa using hr
          exact Or.inr ⟨r, List.mem_cons_self r rest, hxr, hg'⟩
      · have hany' : dest.any (fun y => y.game_id == bdl && y.team_id == s.team_id) = false := by
          have h2 := hany
          rw [List.any_append] at h2
          exact (Bool.or_eq_false_iff.mp h2).1
        exact Or.inr ⟨s, List.mem_cons_of_mem _ hs, heq, hany'⟩

/-! ## Claim C1: monotone game status -/

/-- Claim C1, counterexample: a game stored as `Final` with both scores
set, re-seeded through the `seed_games_nba.py` pipeline with an incoming
`InProgress` header whose box score carries points.  `UPSERT_GAME_SQL`
keeps `Final`, but the score-update at the end of `upsert_boxscore_batch`
assigns `status` unconditionally, so the stored status ends up
`InProgress` — the claimed invariant does not hold for that write path. -/
theorem c1_boxscore_update_downgrades_final :
    (findGame c1Db.games "0022500001").map GameRow.status = some (some "Final") ∧
    (findGame (seed_games_run c1Db "2025-26" [(c1Header, c1Box)]).2.games "0022500001").map
      GameRow.status = some (some "InProgress") := by decide

/-- Claim C1, amended: for upserts executed through `UPSERT_GAME_SQL`
(`upsert_game` in `seed_games_nba.py`), once the stored status is `Final`
a subsequent upsert with any incoming status leaves it `Final`; the
score-update of `upsert_boxscore_batch` and the game upsert of
`seed-nba-then-crossref-bdl.py` assign status unconditionally and are not
covered by the invariant. -/
theorem c1_upsert_game_sql_preserves_final (games : List GameRow) (g : NormalizedGame)
    (r : GameRow) (h : findGame games g.game_id = some r) (hs : r.status = some "Final") :
    findGame (upsert_game games g) g.game_id = some (applyGameUpsert r g) ∧
    (applyGameUpsert r g).status = some "Final" := by
  refine ⟨findGame_upsert_game games g r h, ?_⟩
  simp [applyGameUpsert, hs, mergeStatus_of_final]

/-- Witness for `c1_upsert_game_sql_preserves_final` at a stored `Final`
game receiving a `Scheduled` re-seed. -/
theorem c1_upsert_game_sql_preserves_final_witness :
    findGame (upsert_game cW1Games cW1Game) cW1Game.game_id =
      some (applyGameUpsert
        ⟨"0022500001", "2025-26", 0, some "Final", "BOS", "MIA", some 112, some 108, none⟩
        cW1Game) ∧
    (applyGameUpsert
      ⟨"0022500001", "2025-26", 0, some "Final", "BOS", "MIA", some 112, some 108, none⟩
      cW1Game).status = some "Final" :=
  c1_upsert_game_sql_preserves_final cW1Games cW1Game
    ⟨"0022500001", "2025-26", 0, some "Final", "BOS", "MIA", some 112, some 108, none⟩
    (by decide) rfl

/-! ## Claim C2: non-null scores never overwritten by null -/

/-- Claim C2, counterexample: `upsert_nba_game`
(`seed-nba-then-crossref-bdl.py`) assigns `home_score`/`away_score` from
`excluded` unconditionally and always binds null for both, so a stored
game with both scores set loses them. -/
theorem c2_crossref_upsert_erases_scores :
    (findGame c2Db.games "0022500002").map (fun r => (r.home_score, r.away_score)) =
      some (some 112, some 108) ∧
    (findGame (upsert_nba_game c2Db c2Header c2Tm "2025-26").2.games "0022500002").map
      (fun r => (r.home_score, r.away_score)) = some (none, none) := by decide

/-- Claim C2, amended: for upserts executed through `UPSERT_GAME_SQL`
(`upsert_game` in `seed_games_nba.py`), a null incoming score leaves the
stored score unchanged and a non-null stored score never becomes null;
the game upsert of `seed-nba-then-crossref-bdl.py` overwrites both score
columns unconditionally (always with null) and violates the claim. -/
theorem c2_upsert_game_sql_score_merge (games : List GameRow) (g : NormalizedGame)
    (r : GameRow) (h : findGame games g.game_id = some r) :
    findGame (upsert_game games g) g.game_id = some (applyGameUpsert r g) ∧
    (g.home_score = none → (applyGameUpsert r g).home_score = r.home_score) ∧
    (g.away_score = none → (applyGameUpsert r g).away_score = r.away_score) ∧
    ((applyGameUpsert r g).home_score = none → r.home_score = none) ∧
    ((applyGameUpsert r g).away_score = none → r.away_score = none) := by
  refine ⟨findGame_upsert_game games g r h, fun hn => ?_, fun hn => ?_,
    fun hn => ?_, fun hn => ?_⟩
  · simp [applyGameUpsert, hn, mergeScore_incoming_none]
  · simp [applyGameUpsert, hn, mergeScore_incoming_none]
  · exact mergeScore_eq_none _ _ (by simpa [applyGameUpsert] using hn)
  · exact mergeScore_eq_none _ _ (by simpa [applyGameUpsert] using hn)

/-- Witness for `c2_upsert_game_sql_score_merge`: a stored 112–108 final
re-seeded with null scores keeps 112–108. -/
theorem c2_upsert_game_sql_score_merge_witness :
    (applyGameUpsert
      ⟨"0022500001", "2025-26", 0, some "Final", "BOS", "MIA", some 112, some 108, none⟩
      cW1Game).home_score = some 112 ∧
    (applyGameUpsert
      ⟨"0022500001", "2025-26", 0, some "Final", "BOS", "MIA", some 112, some 108, none⟩
      cW1Game).away_score = some 108 := by
  have h := c2_upsert_game_sql_score_merge cW1Games cW1Game
    ⟨"0022500001", "2025-26", 0, some "Final", "BOS", "MIA", some 112, some 108, none⟩
    (by decide)
  exact ⟨h.2.1 rfl, h.2.2.1 rfl⟩

/-! ## Claim C3: minutes parsing -/

/-- Claim C3: `parse_minutes_to_decimal` maps `"32:30"` to `32.5`,
`"0:00"` to `0.0`, `"abc"` and `None` to null, and `"0"` to `0.0` — but
the empty string maps to null, not `0.0` as claimed: the Python guard
`if not value` returns `None` for `""` before the
`value in {"", "0", "0:00"}` branch (whose `""` member is dead code) can
return `0.0`. -/
theorem c3_parse_minutes_values :
    parse_minutes_to_decimal (some "32:30") = some (65/2) ∧
    parse_minutes_to_decimal (some "0:00") = some 0 ∧
    parse_minutes_to_decimal (some "") = none ∧
    parse_minutes_to_decimal (some "abc") = none ∧
    parse_minutes_to_decimal none = none ∧
    parse_minutes_to_decimal (some "0") = some 0 := by
  refine ⟨?_, by decide, by decide, by decide, by decide, by decide⟩
  rw [show parse_minutes_to_decimal (some "32:30")
      = some (round2 (((32:Int) : ℚ) + ((30:Int) : ℚ) / 60)) from rfl]
  norm_num [round2, rneInt]

/-! ## Claim C4: resolver idempotence -/

/-- Claim C4: resolving the same `(player, nba, provider_id)` triple a
second time, from any database state, returns the id of the first
resolution, leaves the database unchanged, and executes zero write
statements (the third component counts writes). -/
theorem c4_resolve_twice_idempotent (db : DB) (pid name : String) :
    resolve_player_internal_id (resolve_player_internal_id db pid name).2.1 pid name
      = ((resolve_player_internal_id db pid name).1,
         (resolve_player_internal_id db pid name).2.1, 0) := by
  obtain ⟨h1, h2⟩ := resolve_player_internal_id_post db pid name
  set r := resolve_player_internal_id db pid name with hr
  simp only [resolve_player_internal_id, h1, h2, if_true]

/-! ## Claim C5: reconciliation mapping directions -/

/-- Claim C5, counterexample: after `create_bdl_mapping` links NBA game
`0022500001` with BallDontLie game `18400001`, the resolver lookup of the
BallDontLie provider id returns the NBA game id while the lookup of the
NBA provider id returns the BallDontLie game id — two different internal
ids, not one shared internal id as claimed. -/
theorem c5_bdl_mapping_cross_links :
    lookupPim (create_bdl_mapping c5Pim "0022500001" "18400001") "game" "balldontlie"
      "18400001" = some "0022500001" ∧
    lookupPim (create_bdl_mapping c5Pim "0022500001" "18400001") "game" "nba"
      "0022500001" = some "18400001" ∧
    "0022500001" ≠ "18400001" := by decide

/-- Claim C5, amended: `create_bdl_mapping` writes two rows that
cross-link the games — `(game, balldontlie, bdl_id) → nba_id` and
`(game, nba, nba_id) → bdl_id` — so each provider id resolves to the
other record, not both to one shared internal id. -/
theorem c5_bdl_mapping_amended (pim : List PimRow) (nbaId bdlId : String) :
    lookupPim (create_bdl_mapping pim nbaId bdlId) "game" "balldontlie" bdlId = some nbaId ∧
    lookupPim (create_bdl_mapping pim nbaId bdlId) "game" "nba" nbaId = some bdlId := by
  constructor
  · rw [create_bdl_mapping,
      lookupPim_upsertPimUpdate_other _ ⟨"game", bdlId, "nba", nbaId, metaNbaCrossref⟩
        "game" "balldontlie" bdlId (by simp)]
    exact lookupPim_upsertPimUpdate_self pim ⟨"game", nbaId, "balldontlie", bdlId, metaBdlCrossref⟩
  · exact lookupPim_upsertPimUpdate_self _ ⟨"game", bdlId, "nba", nbaId, metaNbaCrossref⟩

/-! ## Claim C6: team points versus player points -/

/-- Claim C6, counterexample: seeding a fresh game whose box score has one
regular 31-point line and one line with null minutes, a non-empty comment
and 7 points stores a team row with 31 points, while the sum of `points`
over all of that team rows in `player_game_stats` is 38 — the aggregation
reads only rows with `dnp_reason IS NULL`, so the claimed equality over
all rows fails. -/
theorem c6_team_points_excludes_dnp_rows :
    (findTgs (process_game_stats c6Db "184001" c6Raw c6Tm).tgs "184001" "BOS").map
      TgsRow.points = some 31 ∧
    sqlSumInt (((process_game_stats c6Db "184001" c6Raw c6Tm).pgs.filter
        (fun r => r.game_id == "184001" && r.team_id == "BOS")).map (fun r => r.points))
      = some 38 ∧
    some (31 : Int) ≠ some (38 : Int) := by decide

/-- Claim C6, amended: after the box-score seeder processes a game with no
pre-existing `team_game_stats` rows for it, every stored team row for that
game has `points` equal to the SQL sum of `points` over that team rows in
`player_game_stats` whose `dnp_reason` is null (null points skipped, zero
when no such row exists). -/
theorem c6_team_points_amended (db : DB) (gid : String) (raw : List RawPlayerLine)
    (tm : List (String × String)) (hfresh : ∀ t ∈ db.tgs, t.game_id ≠ gid) :
    ∀ t ∈ (process_game_stats db gid raw tm).tgs, t.game_id = gid →
      t.points = (sqlSumInt ((((process_game_stats db gid raw tm).pgs.filter
          (fun r => r.game_id == gid && r.dnp_reason == none)).filter
          (fun r => r.team_id == t.team_id)).map (fun r => r.points))).getD 0 := by
  intro t ht hgid
  by_cases hz : (upsert_player_game_stats db gid raw tm).2 = 0
  · have hres : process_game_stats db gid raw tm =
        (upsert_player_game_stats db gid raw tm).1 := by
      simp [process_game_stats, hz]
    rw [hres, upsert_player_game_stats_tgs] at ht
    exact absurd hgid (hfresh t ht)
  · have hres : process_game_stats db gid raw tm =
        (upsert_team_game_stats (upsert_player_game_stats db gid raw tm).1 gid
          (aggregate_team_stats_from_players
            (upsert_player_game_stats db gid raw tm).1.pgs gid tm)).1 := by
      simp [process_game_stats, hz]
    set db1 := (upsert_player_game_stats db gid raw tm).1 with hdb1
    cases hg : findGame db1.games gid with
    | none =>
      have h2 : (upsert_team_game_stats db1 gid
          (aggregate_team_stats_from_players db1.pgs gid tm)).1 = db1 := by
        simp [upsert_team_game_stats, hg]
      rw [hres, h2] at ht
      have hdt : db1.tgs = db.tgs := upsert_player_game_stats_tgs db gid raw tm
      rw [hdt] at ht
      exact absurd hgid (hfresh t ht)
    | some gi =>
      have hpgs : (process_game_stats db gid raw tm).pgs = db1.pgs := by
        rw [hres]; simp [upsert_team_game_stats, hg]
      have htgs : (process_game_stats db gid raw tm).tgs =
          ((aggregate_team_stats_from_players db1.pgs gid tm).foldl
            (upsertTgsStep gid gi) (db1.tgs, 0)).1 := by
        rw [hres]; simp [upsert_team_game_stats, hg]
      rw [htgs] at ht
      rw [hpgs]
      refine foldl_upsertTgsStep_inv
        (fun tid pts => pts = (sqlSumInt (((db1.pgs.filter
            (fun r => r.game_id == gid && r.dnp_reason == none)).filter
            (fun r => r.team_id == tid)).map (fun r => r.points))).getD 0)
        gid gi _ ?_ (db1.tgs, 0) ?_ t ht hgid
      · exact aggregate_points_spec db1.pgs gid tm
      · intro x hx hxgid
        have hdt : db1.tgs = db.tgs := upsert_player_game_stats_tgs db gid raw tm
        rw [hdt] at hx
        exact absurd hxgid (hfresh x hx)

/-- Witness for `c6_team_points_amended` on the concrete seeded game: the
stored team row carries 31 points, the sum over the non-DNP rows of that
team. -/
theorem c6_team_points_amended_witness :
    (⟨"184001", "BOS", true, 31, 8, 9⟩ : TgsRow).points =
      (sqlSumInt ((((process_game_stats c6Db "184001" c6Raw c6Tm).pgs.filter
          (fun r => r.game_id == "184001" && r.dnp_reason == none)).filter
          (fun r => r.team_id == "BOS")).map (fun r => r.points))).getD 0 :=
  c6_team_points_amended c6Db "184001" c6Raw c6Tm (by decide)
    ⟨"184001", "BOS", true, 31, 8, 9⟩ (by decide) rfl

/-! ## Claim C7: missing team mappings are fatal -/

/-- Claim C7: if `provider_id_map` contains no row with
`entity_type = team` and `provider = nba`, `seed_games_nba.py` raises in
`resolve_team_mapping` before processing any game; the top-level handler
exits with code 1 and the database is untouched. -/
theorem c7_missing_team_mapping_fails_fast (db : DB) (season : String)
    (sched : List (ScoreboardGameHeader × List RawPlayerLine))
    (h : ∀ r ∈ db.pim, ¬(r.entity_type = "team" ∧ r.provider = "nba")) :
    seed_games_run db season sched = (1, db) := by
  have hf : db.pim.filter (fun r => r.entity_type == "team" && r.provider == "nba") = [] := by
    rw [List.filter_eq_nil_iff]
    intro a ha
    cases hb : (a.entity_type == "team" && a.provider == "nba") with
    | false => simp
    | true =>
      have hx : a.entity_type = "team" ∧ a.provider = "nba" := by simpa using hb
      exact absurd hx (h a ha)
  simp [seed_games_run, resolve_team_mapping, hf]

/-- Witness for `c7_missing_team_mapping_fails_fast` on a database whose
provider map has player and foreign-provider rows but no `(team, nba)`
rows, with a non-empty schedule. -/
theorem c7_missing_team_mapping_fails_fast_witness :
    seed_games_run c7Db "2025-26" c7Sched = (1, c7Db) :=
  c7_missing_team_mapping_fails_fast c7Db "2025-26" c7Sched (by decide)

/-! ## Claim C8: copying stats never overwrites destination rows -/

/-- Claim C8: for both `copy_player_stats` and `copy_team_stats`, a row
already present at the destination key is returned unchanged in all
fields after the copy, and every row of the result is either an original
row or a retagged copy of a source row whose destination key was absent
before the copy. -/
theorem c8_copy_stats_do_nothing (pgs : List PgsRow) (tgs : List TgsRow) (bdl nba : String) :
    (∀ pid r, findPgs pgs bdl pid = some r →
      findPgs (copy_player_stats pgs bdl nba) bdl pid = some r) ∧
    (∀ x ∈ copy_player_stats pgs bdl nba, x ∈ pgs ∨
      ∃ s ∈ pgs, s.game_id = nba ∧ x = { s with game_id := bdl } ∧
        findPgs pgs bdl s.player_id = none) ∧
    (∀ tid r, findTgs tgs bdl tid = some r →
      findTgs (copy_team_stats tgs bdl nba) bdl tid = some r) ∧
    (∀ x ∈ copy_team_stats tgs bdl nba, x ∈ tgs ∨
      ∃ s ∈ tgs, s.game_id = nba ∧ x = { s with game_id := bdl } ∧
        findTgs tgs bdl s.team_id = none) := by
  refine ⟨?_, ?_, ?_, ?_⟩
  · intro pid r h
    obtain ⟨ext, he⟩ := copyRowsPgs_prefix (pgs.filter (fun r => r.game_id == nba)) pgs bdl
    simp only [copy_player_stats]
    rw [he]
    exact findPgs_append_some _ _ _ _ _ h
  · intro x hx
    simp only [copy_player_stats] at hx
    rcases copyRowsPgs_mem (pgs.filter (fun r => r.game_id == nba)) pgs bdl x hx with
      hin | ⟨s, hs, heq, hany⟩
    · exact Or.inl hin
    · rcases List.mem_filter.mp hs with ⟨hmem, hnba⟩
      exact Or.inr ⟨s, hmem, by simpa using hnba, heq, (findPgs_none_iff _ _ _).mpr hany⟩
  · intro tid r h
    obtain ⟨ext, he⟩ := copyRowsTgs_prefix (tgs.filter (fun r => r.game_id == nba)) tgs bdl
    simp only [copy_team_stats]
    rw [he]
    exact findTgs_append_some _ _ _ _ _ h
  · intro x hx
    simp only [copy_team_stats] at hx
    rcases copyRowsTgs_mem (tgs.filter (fun r => r.game_id == nba)) tgs bdl x hx with
      hin | ⟨s, hs, heq, hany⟩
    · exact Or.inl hin
    · rcases List.mem_filter.mp hs with ⟨hmem, hnba⟩
      exact Or.inr ⟨s, hmem, by simpa using hnba, heq, (findTgs_none_iff _ _ _).mpr hany⟩

/-- Witness for `c8_copy_stats_do_nothing`: the destination game already
has a `p1` row with its own values; after copying from the NBA Stats game
the destination row is byte-for-byte unchanged. -/
theorem c8_copy_stats_do_nothing_witness :
    findPgs (copy_player_stats c8Pgs "184B" "002A") "184B" "p1" =
      some ⟨"184B", "p1", "T1", none, some 99, none, none, false, none⟩ :=
  (c8_copy_stats_do_nothing c8Pgs c8Tgs "184B" "002A").1 "p1"
    ⟨"184B", "p1", "T1", none, some 99, none, none, false, none⟩ (by decide)

/-! ## Claim C9: single-token names skip the name match -/

/-- Claim C9: when the player name splits into a single whitespace token
and no provider mapping exists for the provider id, the name-based
secondary match is skipped — for every `players` table, including one
holding a player with that exact full name — and the resolver creates a
player row keyed by the provider id with `first_name` equal to the token
and `last_name` null (two write statements). -/
theorem c9_single_token_name_creates (db : DB) (pid name t : String)
    (h1 : lookupPim db.pim "player" "nba" pid = none)
    (h2 : splitWs name = [t]) :
    resolve_player_internal_id db pid name =
      (pid,
       { db with players := upsertPlayerUpdate db.players ⟨pid, name, some t, none⟩,
                 pim := upsertPimUpdate db.pim ⟨"player", pid, "nba", pid, metaSeededFromBoxscore⟩ },
       2)
    ∧ findPlayer (resolve_player_internal_id db pid name).2.1.players pid
        = some ⟨pid, name, some t, none⟩ := by
  have hlen : ¬ ((splitWs name).length ≥ 2) := by
    rw [h2]; simp
  have hres : resolve_player_internal_id db pid name = createPlayerAndMapping db pid name := by
    simp only [resolve_player_internal_id, h1, linkOrCreatePlayer, hlen, if_false]
  have hcreate : createPlayerAndMapping db pid name =
      (pid,
       { db with players := upsertPlayerUpdate db.players ⟨pid, name, some t, none⟩,
                 pim := upsertPimUpdate db.pim ⟨"player", pid, "nba", pid, metaSeededFromBoxscore⟩ },
       2) := by
    simp [createPlayerAndMapping, h2]
  refine ⟨hres.trans hcreate, ?_⟩
  rw [hres, hcreate]
  have hf := findPlayer_upsertPlayerUpdate_self db.players ⟨pid, name, some t, none⟩
  simpa using hf

/-- Witness for `c9_single_token_name_creates`: resolving the single-token
name `Nene` against a table that already holds a different player whose
full name is exactly `Nene` still creates a fresh row keyed by the
provider id. -/
theorem c9_single_token_name_creates_witness :
    resolve_player_internal_id c9Db "201149" "Nene" =
      ("201149",
       { c9Db with
           players := upsertPlayerUpdate c9Db.players ⟨"201149", "Nene", some "Nene", none⟩,
           pim := upsertPimUpdate c9Db.pim
             ⟨"player", "201149", "nba", "201149", metaSeededFromBoxscore⟩ },
       2)
    ∧ findPlayer (resolve_player_internal_id c9Db "201149" "Nene").2.1.players "201149"
        = some ⟨"201149", "Nene", some "Nene", none⟩ :=
  c9_single_token_name_creates c9Db "201149" "Nene" "Nene" (by decide) (by decide)

/-! ## Claim C10: `dnp_reason` and parsed minutes -/

/-- Claim C10: the `dnp_reason` value the seeders store is non-null only
when the parsed minutes are null and the provider comment is truthy
(non-null and non-empty); whenever minutes parse to a number — including
`0.0` — the stored `dnp_reason` is null. -/
theorem c10_dnp_reason_iff_null_minutes (m c : Option String) :
    (dnpReason (parse_minutes_to_decimal m) c ≠ none →
      parse_minutes_to_decimal m = none ∧ truthyStr c = true) ∧
    (∀ q : ℚ, parse_minutes_to_decimal m = some q →
      dnpReason (parse_minutes_to_decimal m) c = none) := by
  by_cases h : parse_minutes_to_decimal m = none ∧ truthyStr c = true
  · refine ⟨fun _ => h, fun q hq => ?_⟩
    rw [hq] at h
    exact absurd h.1 (by simp)
  · refine ⟨fun hne => absurd ?_ hne, fun q hq => ?_⟩
    · simp [dnpReason, h]
    · simp [dnpReason, h]

/-- Witness for `c10_dnp_reason_iff_null_minutes`: minutes `12:30` parse
to a number, so the stored `dnp_reason` is null even with a non-empty
comment. -/
theorem c10_dnp_reason_iff_null_minutes_witness :
    dnpReason (parse_minutes_to_decimal (some "12:30")) (some "Rest") = none :=
  (c10_dnp_reason_iff_null_minutes (some "12:30") (some "Rest")).2
    (round2 (((12:Int) : ℚ) + ((30:Int) : ℚ) / 60)) rfl
